import Mathlib

/-!
Verification of the wallet-provider discovery store and the RPC call sites of
src/src/WalletProviders.tsx, shallowly embedded in Lean.

The module-scoped mutable variable providers becomes an explicit list that is
threaded through the event handler; the browser event system (addEventListener,
removeEventListener, dispatchEvent) becomes an explicit StoreState carrying the
list of registered listeners and a counter of dispatched request events; async
RPC calls become functions parameterised by the outcome (resolved or rejected)
of each external request, returning Except to make propagation of a rejection
out of an async function body observable, together with the list of console
diagnostic log entries emitted.
-/

/-- Provider display information from EIP-6963 (interface EIP6963ProviderInfo). -/
structure EIP6963ProviderInfo where
  walletId : String
  uuid : String
  name : String
  icon : String
deriving DecidableEq, Repr

/-- The EIP-1193 provider handle. Its request entry point is an external
callable owned by the wallet extension; only its identity matters to the
store, so it is modelled as an opaque numeric handle. The behaviour of its
request method is supplied at each call site as an RpcOutcome parameter. -/
structure EIP1193Provider where
  handle : Nat
deriving DecidableEq, Repr

/-- A discovered provider entry: display info plus the callable handle
(interface EIP6963ProviderDetail). -/
structure EIP6963ProviderDetail where
  info : EIP6963ProviderInfo
  provider : EIP1193Provider
deriving DecidableEq, Repr

/-- The uuid of an entry, the key the store de-duplicates on. -/
def uuidOf (d : EIP6963ProviderDetail) : String := d.info.uuid

/-- The announcement handler installed by store.subscribe. Given the current
value of the module variable providers and the announced detail, it returns
the new value of providers together with the number of times the subscriber
callback was invoked during this handling (0 or 1):
if providers.some(p onto p.info.uuid === event.detail.info.uuid) return;
providers = [...providers, event.detail]; callback(). -/
def onAnnouncement (providers : List EIP6963ProviderDetail)
    (event : EIP6963ProviderDetail) : List EIP6963ProviderDetail × Nat :=
  if providers.any fun p => p.info.uuid == event.info.uuid then (providers, 0)
  else (providers ++ [event], 1)

/-- Handling a whole sequence of announcement events by the single handler,
starting from a given value of providers. -/
def processEvents (providers : List EIP6963ProviderDetail) :
    List EIP6963ProviderDetail → List EIP6963ProviderDetail
  | [] => providers
  | e :: rest => processEvents (onAnnouncement providers e).1 rest

/-- Follows the spec's words, not the code: the collection contains exactly one
entry per distinct identifier, in first-seen order, de-duplicated by uuid,
with the entry taken from the first announcement of that uuid. The seen
argument is the set of identifiers already present. -/
def specFirstSeen (seen : List String) :
    List EIP6963ProviderDetail → List EIP6963ProviderDetail
  | [] => []
  | e :: rest =>
      if e.info.uuid ∈ seen then specFirstSeen seen rest
      else e :: specFirstSeen (e.info.uuid :: seen) rest

/-- The state of the store module together with the browser event plumbing:
the module variable providers, the ids of the registered announcement
listeners in registration order, a fresh-id counter, and how many
eip6963:requestProvider events have been dispatched. -/
structure StoreState where
  providers : List EIP6963ProviderDetail
  listeners : List Nat
  nextListenerId : Nat
  requestDispatches : Nat
deriving DecidableEq, Repr

/-- store.subscribe: installs a fresh onAnnouncement listener via
window.addEventListener, then dispatches one eip6963:requestProvider event,
and returns the id that the returned unsubscribe closure will remove. -/
def subscribe (s : StoreState) : StoreState × Nat :=
  ({ s with
      listeners := s.listeners ++ [s.nextListenerId],
      nextListenerId := s.nextListenerId + 1,
      requestDispatches := s.requestDispatches + 1 },
   s.nextListenerId)

/-- The unsubscribe closure returned by store.subscribe:
window.removeEventListener removes that one listener registration. -/
def unsubscribe (s : StoreState) (id : Nat) : StoreState :=
  { s with listeners := s.listeners.erase id }

/-- Dispatching one eip6963:announceProvider event: every registered listener
runs onAnnouncement, in registration order, all reading and writing the same
module variable providers. Returns the new state and the ids of the
subscriptions whose callback fired. -/
def deliverAnnouncement (s : StoreState) (ev : EIP6963ProviderDetail) :
    StoreState × List Nat :=
  let r := s.listeners.foldl
    (fun (acc : List EIP6963ProviderDetail × List Nat) id =>
      let step := onAnnouncement acc.1 ev
      (step.1, acc.2 ++ if step.2 = 1 then [id] else []))
    (s.providers, ([] : List Nat))
  ({ s with providers := r.1 }, r.2)

/-- Dispatching a sequence of announcement events. -/
def deliverEvents (s : StoreState) : List EIP6963ProviderDetail → StoreState
  | [] => s
  | e :: rest => deliverEvents (deliverAnnouncement s e).1 rest

/-- Outcome of one external RPC request: the promise resolves with a value or
rejects with an error. -/
inductive RpcOutcome (α : Type) where
  | resolved (v : α)
  | rejected (e : String)
deriving DecidableEq, Repr

/-- Awaiting a promise inside an async function body: a rejection becomes a
thrown error of the surrounding body. -/
def awaited {α : Type} : RpcOutcome α → Except String α
  | .resolved v => .ok v
  | .rejected e => .error e

/-- The promise combinator .catch(console.error): a rejection is swallowed,
logged to the console error log, and the awaited value becomes undefined
(none); a resolution passes through. Returns the value and the log entries. -/
def catchConsoleError {α : Type} : Except String α → Option α × List String
  | .ok v => (some v, [])
  | .error e => (none, [e])

/-- UI-local connection state of the WalletProviders component:
selectedWallet (useState, initially undefined) and userAccount (useState,
initially the empty string). -/
structure ConnState where
  selectedWallet : Option EIP6963ProviderDetail
  userAccount : String
deriving DecidableEq, Repr

/-- handleConnect: awaits eth_requestAccounts with .catch(console.error), so
the awaited value has type string-array or undefined; if accounts is truthy
and accounts[0] is truthy (a nonempty first element) it sets selectedWallet
and userAccount, otherwise it leaves both untouched. Returns the new
connection state and the console error log; the Except layer records whether
the async body propagates a rejection (it never does here, because of the
catch). In JavaScript an array is always truthy, so the guard
accounts and accounts[0] reduces to: accounts is defined and its first
element exists and is nonempty. -/
def handleConnect (st : ConnState) (w : EIP6963ProviderDetail)
    (outcome : RpcOutcome (Option (List String))) :
    Except String (ConnState × List String) :=
  let caught := catchConsoleError (awaited outcome)
  let accounts : Option (List String) := caught.1.join
  match accounts with
  | some (a0 :: _) =>
      if a0 ≠ "" then
        .ok ({ selectedWallet := some w, userAccount := a0 }, caught.2)
      else .ok (st, caught.2)
  | _ => .ok (st, caught.2)

/-- One run of the async callback of the 5-second setInterval: it awaits the
eth_chainId request and then the wallet_getCapabilities request, with no
catch on either, then logs the debug line. A rejection of either request is
thrown by the await and propagates out of the async callback (an unhandled
promise rejection), producing no log. -/
def intervalTick (chainIdOutcome : RpcOutcome String)
    (capabilitiesOutcome : RpcOutcome String) : Except String (List String) := do
  let chainId ← awaited chainIdOutcome
  let capabilities ← awaited capabilitiesOutcome
  pure ["[Wallet Debug] Effect run: " ++ chainId ++ " " ++ capabilities]

/-- signMessages: if not connected it returns immediately; otherwise it awaits
two eth_signTypedData_v4 requests, each with .catch(console.error), then logs
the signatures. Returns the console log entries (error entries first, in call
order, then the summary line); the Except layer records propagation of a
rejection out of the async body, which the two catches prevent. -/
def signMessages (isConnected : Bool) (r1 r2 : RpcOutcome String) :
    Except String (List String) :=
  if !isConnected then .ok []
  else
    let s1 := catchConsoleError (awaited r1)
    let s2 := catchConsoleError (awaited r2)
    .ok (s1.2 ++ s2.2 ++ ["[Wallet Debug] Signatures:"])

/-- Concrete test fixture: provider A. -/
def detailA : EIP6963ProviderDetail :=
  ⟨⟨"walletA", "uuid-1", "Wallet A", "iconA"⟩, ⟨1⟩⟩

/-- Concrete test fixture: provider B. -/
def detailB : EIP6963ProviderDetail :=
  ⟨⟨"walletB", "uuid-2", "Wallet B", "iconB"⟩, ⟨2⟩⟩

/-- Concrete test fixture: same uuid as provider A but different info and
different handle. -/
def detailA2 : EIP6963ProviderDetail :=
  ⟨⟨"walletA2", "uuid-1", "Wallet A again", "iconA2"⟩, ⟨3⟩⟩

/-- Whether an async body finished without propagating a thrown rejection. -/
def exceptOk {α : Type} : Except String α → Bool
  | .ok _ => true
  | .error _ => false

theorem any_uuid_eq (ps : List EIP6963ProviderDetail) (e : EIP6963ProviderDetail) :
    (ps.any fun p => p.info.uuid == e.info.uuid) = true ↔
      e.info.uuid ∈ ps.map uuidOf := by
  rw [List.any_eq_true]
  constructor
  · rintro ⟨p, hp, hbeq⟩
    rw [beq_iff_eq] at hbeq
    exact List.mem_map.2 ⟨p, hp, hbeq⟩
  · intro hmem
    rcases List.mem_map.1 hmem with ⟨p, hp, hu⟩
    exact ⟨p, hp, by rw [beq_iff_eq]; exact hu⟩

theorem onAnnouncement_mem (ps : List EIP6963ProviderDetail)
    (e : EIP6963ProviderDetail) (h : e.info.uuid ∈ ps.map uuidOf) :
    onAnnouncement ps e = (ps, 0) := by
  simp [onAnnouncement, (any_uuid_eq ps e).2 h]

theorem onAnnouncement_not_mem (ps : List EIP6963ProviderDetail)
    (e : EIP6963ProviderDetail) (h : e.info.uuid ∉ ps.map uuidOf) :
    onAnnouncement ps e = (ps ++ [e], 1) := by
  have hfalse : (ps.any fun p => p.info.uuid == e.info.uuid) = false := by
    rw [← Bool.not_eq_true, any_uuid_eq]
    exact h
  unfold onAnnouncement
  rw [hfalse]
  rfl

theorem specFirstSeen_congr (l : List EIP6963ProviderDetail) :
    ∀ seen seenB : List String, (∀ u, u ∈ seen ↔ u ∈ seenB) →
      specFirstSeen seen l = specFirstSeen seenB l := by
  induction l with
  | nil => intro seen seenB _; rfl
  | cons e rest ih =>
    intro seen seenB hiff
    by_cases h : e.info.uuid ∈ seen
    · rw [specFirstSeen, if_pos h, specFirstSeen, if_pos ((hiff _).1 h)]
      exact ih seen seenB hiff
    · rw [specFirstSeen, if_neg h, specFirstSeen,
        if_neg (fun hc => h ((hiff _).2 hc))]
      refine congrArg _ (ih _ _ ?_)
      intro u
      simp only [List.mem_cons]
      exact or_congr Iff.rfl (hiff u)

theorem processEvents_eq (evs : List EIP6963ProviderDetail) :
    ∀ acc : List EIP6963ProviderDetail,
      processEvents acc evs = acc ++ specFirstSeen (acc.map uuidOf) evs := by
  induction evs with
  | nil => intro acc; simp [processEvents, specFirstSeen]
  | cons e rest ih =>
    intro acc
    by_cases h : e.info.uuid ∈ acc.map uuidOf
    · rw [processEvents, onAnnouncement_mem acc e h]
      rw [ih acc, specFirstSeen, if_pos h]
    · rw [processEvents, onAnnouncement_not_mem acc e h]
      rw [ih (acc ++ [e])]
      have hmap : (acc ++ [e]).map uuidOf = acc.map uuidOf ++ [e.info.uuid] := by
        simp [uuidOf]
      rw [hmap, specFirstSeen, if_neg h]
      rw [specFirstSeen_congr rest (acc.map uuidOf ++ [e.info.uuid])
        (e.info.uuid :: acc.map uuidOf) (by intro u; simp [or_comm])]
      simp

theorem specFirstSeen_mem (l : List EIP6963ProviderDetail) :
    ∀ (seen : List String) (u : String),
      u ∈ (specFirstSeen seen l).map uuidOf ↔
        (u ∉ seen ∧ u ∈ l.map uuidOf) := by
  induction l with
  | nil => intro seen u; simp [specFirstSeen]
  | cons e rest ih =>
    intro seen u
    by_cases h : e.info.uuid ∈ seen
    · rw [specFirstSeen, if_pos h, ih seen u]
      simp only [List.map_cons, List.mem_cons]
      constructor
      · rintro ⟨h1, h2⟩
        exact ⟨h1, Or.inr h2⟩
      · rintro ⟨h1, h2 | h2⟩
        · exact absurd (h2 ▸ h) h1
        · exact ⟨h1, h2⟩
    · rw [specFirstSeen, if_neg h]
      simp only [List.map_cons, List.mem_cons]
      rw [ih (e.info.uuid :: seen) u]
      simp only [List.mem_cons]
      constructor
      · rintro (h1 | ⟨h1, h2⟩)
        · subst h1
          exact ⟨fun hc => h hc, Or.inl rfl⟩
        · exact ⟨fun hc => h1 (Or.inr hc), Or.inr h2⟩
      · rintro ⟨h1, h2 | h2⟩
        · exact Or.inl h2
        · by_cases he : u = uuidOf e
          · exact Or.inl he
          · exact Or.inr ⟨fun hc => hc.elim (fun hh => he hh) h1, h2⟩

theorem specFirstSeen_nodup (l : List EIP6963ProviderDetail) :
    ∀ seen : List String, ((specFirstSeen seen l).map uuidOf).Nodup := by
  induction l with
  | nil => intro seen; simp [specFirstSeen]
  | cons e rest ih =>
    intro seen
    by_cases h : e.info.uuid ∈ seen
    · rw [specFirstSeen, if_pos h]
      exact ih seen
    · rw [specFirstSeen, if_neg h]
      simp only [List.map_cons, List.nodup_cons]
      refine ⟨?_, ih _⟩
      intro hmem
      rw [specFirstSeen_mem] at hmem
      exact hmem.1 (List.mem_cons_self _ _)

theorem specFirstSeen_find (l : List EIP6963ProviderDetail) :
    ∀ (seen : List String) (u : String), u ∉ seen →
      (specFirstSeen seen l).find? (fun d => d.info.uuid == u) =
        l.find? (fun d => d.info.uuid == u) := by
  induction l with
  | nil => intro seen u _; rfl
  | cons e rest ih =>
    intro seen u hu
    by_cases h : e.info.uuid ∈ seen
    · rw [specFirstSeen, if_pos h]
      rw [ih seen u hu]
      have hne : (e.info.uuid == u) = false := by
        rw [beq_eq_false_iff_ne]
        intro hc
        exact hu (hc ▸ h)
      rw [List.find?]
      rw [hne]
    · rw [specFirstSeen, if_neg h]
      by_cases he : e.info.uuid = u
      · have hb : (e.info.uuid == u) = true := by rw [beq_iff_eq]; exact he
        rw [List.find?, hb, List.find?, hb]
      · have hb : (e.info.uuid == u) = false := by
          rw [beq_eq_false_iff_ne]; exact he
        rw [List.find?, hb, List.find?, hb]
        refine ih (e.info.uuid :: seen) u ?_
        intro hc
        rcases List.mem_cons.1 hc with h1 | h1
        · exact he h1.symm
        · exact hu h1

theorem deliverAnnouncement_no_listeners (s : StoreState) (h : s.listeners = [])
    (e : EIP6963ProviderDetail) : deliverAnnouncement s e = (s, []) := by
  obtain ⟨p, l, n, r⟩ := s
  simp only [StoreState.listeners] at h
  subst h
  simp [deliverAnnouncement]

theorem deliverEvents_no_listeners (evs : List EIP6963ProviderDetail) :
    ∀ s : StoreState, s.listeners = [] → deliverEvents s evs = s := by
  induction evs with
  | nil => intro s _; rfl
  | cons e rest ih =>
    intro s h
    have hstep : deliverEvents s (e :: rest)
        = deliverEvents (deliverAnnouncement s e).1 rest := rfl
    rw [hstep, deliverAnnouncement_no_listeners s h e]
    exact ih s h

theorem processEvents_spec (evs : List EIP6963ProviderDetail) :
    processEvents [] evs = specFirstSeen [] evs := by
  have h := processEvents_eq evs []
  simpa using h

theorem handleConnect_ok (st : ConnState) (w : EIP6963ProviderDetail)
    (o : RpcOutcome (Option (List String))) :
    exceptOk (handleConnect st w o) = true := by
  cases o with
  | rejected e => rfl
  | resolved a =>
    cases a with
    | none => rfl
    | some l =>
      cases l with
      | nil => rfl
      | cons a0 rest =>
        by_cases ha : a0 = ""
        · simp [handleConnect, awaited, catchConsoleError, exceptOk, ha]
        · simp [handleConnect, awaited, catchConsoleError, exceptOk, ha]

theorem signMessages_ok (c : Bool) (r1 r2 : RpcOutcome String) :
    exceptOk (signMessages c r1 r2) = true := by
  cases c with
  | false => rfl
  | true => rfl

/-- Claim C1: for every sequence of announcement events delivered to a
subscribed listener, the resulting provider collection equals the spec-level
first-seen de-duplication, its uuids are pairwise distinct, and a uuid occurs
in it exactly when it was announced: one entry per distinct uuid, in the order
in which the uuids were first announced. -/
theorem C1_collection_firstSeen_order (evs : List EIP6963ProviderDetail) :
    processEvents [] evs = specFirstSeen [] evs ∧
    ((processEvents [] evs).map uuidOf).Nodup ∧
    (∀ u, u ∈ (processEvents [] evs).map uuidOf ↔ u ∈ evs.map uuidOf) := by
  have h0 := processEvents_spec evs
  refine ⟨h0, ?_, ?_⟩
  · rw [h0]
    exact specFirstSeen_nodup evs []
  · intro u
    rw [h0, specFirstSeen_mem]
    simp

/-- Claim C2: an announcement whose uuid is already in the collection leaves
the collection exactly unchanged and fires no callback, and handling the same
announcement twice yields the same collection as handling it once. -/
theorem C2_reannounce_noop (ps : List EIP6963ProviderDetail)
    (e : EIP6963ProviderDetail) (h : e.info.uuid ∈ ps.map uuidOf) :
    onAnnouncement ps e = (ps, 0) ∧
    processEvents ps [e, e] = processEvents ps [e] := by
  have h1 := onAnnouncement_mem ps e h
  refine ⟨h1, ?_⟩
  simp [processEvents, h1]

/-- Witness for C2 at a concrete re-announcement of an already-seen uuid. -/
theorem C2_reannounce_noop_witness :
    detailA2.info.uuid ∈ [detailA].map uuidOf ∧
    (onAnnouncement [detailA] detailA2 = ([detailA], 0) ∧
     processEvents [detailA] [detailA2, detailA2]
       = processEvents [detailA] [detailA2]) :=
  ⟨by decide, C2_reannounce_noop [detailA] detailA2 (by decide)⟩

/-- Claim C3: after the unsubscribe closure returned by store.subscribe has
run, and no other subscription is live, no subsequently delivered announcement
event mutates the provider collection: store.value stays what it was at
unsubscribe time for every later sequence of events. -/
theorem C3_unsubscribe_stops_mutation (s : StoreState) (hs : s.listeners = [])
    (evs : List EIP6963ProviderDetail) :
    (deliverEvents (unsubscribe (subscribe s).1 (subscribe s).2) evs).providers
      = (unsubscribe (subscribe s).1 (subscribe s).2).providers := by
  have h2 : (unsubscribe (subscribe s).1 (subscribe s).2).listeners = [] := by
    simp [subscribe, unsubscribe, hs]
  rw [deliverEvents_no_listeners evs _ h2]

/-- Witness for C3 at a concrete fresh store and one later announcement. -/
theorem C3_unsubscribe_stops_mutation_witness :
    (⟨[], [], 0, 0⟩ : StoreState).listeners = [] ∧
    (deliverEvents
        (unsubscribe (subscribe ⟨[], [], 0, 0⟩).1 (subscribe ⟨[], [], 0, 0⟩).2)
        [detailA]).providers
      = (unsubscribe (subscribe ⟨[], [], 0, 0⟩).1
          (subscribe ⟨[], [], 0, 0⟩).2).providers :=
  ⟨rfl, C3_unsubscribe_stops_mutation ⟨[], [], 0, 0⟩ rfl [detailA]⟩

/-- Claim C4: each call to store.subscribe dispatches exactly one
eip6963:requestProvider broadcast: the dispatch counter rises by exactly one. -/
theorem C4_subscribe_one_request (s : StoreState) :
    (subscribe s).1.requestDispatches = s.requestDispatches + 1 := rfl

/-- Counterexample to claim C5 as stated: the eth_chainId request of the
5-second interval callback has no catch, so a concrete rejection is not
routed to a log but propagates out of the async callback as an error. -/
theorem C5_counterexample_interval_uncaught :
    intervalTick (RpcOutcome.rejected "boom") (RpcOutcome.resolved "0x1")
      = Except.error "boom" := rfl

/-- Claim C5 as amended: rejected RPC requests in handleConnect and in
signMessages are caught at the call site, routed to the console error log and
never propagate, while the eth_chainId and wallet_getCapabilities requests of
the 5-second interval are not caught: a rejection of either one propagates
out of the interval callback and nothing is logged. -/
theorem C5_catch_sites_amended (st : ConnState) (w : EIP6963ProviderDetail)
    (o : RpcOutcome (Option (List String))) (c : Bool) (r1 r2 : RpcOutcome String)
    (e v : String) :
    exceptOk (handleConnect st w o) = true ∧
    (handleConnect st w (RpcOutcome.rejected e)).map Prod.snd = Except.ok [e] ∧
    exceptOk (signMessages c r1 r2) = true ∧
    signMessages true (RpcOutcome.rejected e) (RpcOutcome.rejected v)
      = Except.ok [e, v, "[Wallet Debug] Signatures:"] ∧
    intervalTick (RpcOutcome.rejected e) r2 = Except.error e ∧
    intervalTick (RpcOutcome.resolved v) (RpcOutcome.rejected e)
      = Except.error e :=
  ⟨handleConnect_ok st w o, rfl, signMessages_ok c r1 r2, rfl, rfl, rfl⟩

/-- Claim C6: first announcement wins. A re-announced uuid changes nothing
even when info or handle differ; the entry found for a uuid in the resulting
collection is exactly the first announcement carrying that uuid; and
de-duplication is keyed on uuid alone, so two announcements agreeing on every
display field but the uuid both produce entries. -/
theorem C6_first_announcement_wins (ps : List EIP6963ProviderDetail)
    (e : EIP6963ProviderDetail) (evs : List EIP6963ProviderDetail) (u : String)
    (e1 e2 : EIP6963ProviderDetail)
    (h1 : e.info.uuid ∈ ps.map uuidOf)
    (h2 : e1.info.uuid ≠ e2.info.uuid) :
    (onAnnouncement ps e).1 = ps ∧
    (processEvents [] evs).find? (fun d => d.info.uuid == u)
      = evs.find? (fun d => d.info.uuid == u) ∧
    processEvents [] [e1, e2] = [e1, e2] := by
  refine ⟨by rw [onAnnouncement_mem ps e h1], ?_, ?_⟩
  · rw [processEvents_spec evs]
    exact specFirstSeen_find evs [] u (List.not_mem_nil u)
  · have hA : onAnnouncement [] e1 = ([e1], 1) :=
      onAnnouncement_not_mem [] e1 (by simp)
    have hB : e2.info.uuid ∉ [e1].map uuidOf := by
      intro hc
      rcases List.mem_map.1 hc with ⟨p, hp, hu⟩
      rcases List.mem_singleton.1 hp with rfl
      exact h2 hu
    have hA2 := onAnnouncement_not_mem [e1] e2 hB
    simp [processEvents, hA, hA2]

/-- Witness for C6 at concrete inputs: a re-announcement of uuid-1 with
different info and handle, a lookup of uuid-1, and two distinct uuids sharing
no other distinguishing treatment. -/
theorem C6_first_announcement_wins_witness :
    (detailA2.info.uuid ∈ [detailA].map uuidOf ∧
     detailA.info.uuid ≠ detailB.info.uuid) ∧
    ((onAnnouncement [detailA] detailA2).1 = [detailA] ∧
     (processEvents [] [detailA, detailA2]).find?
        (fun d => d.info.uuid == "uuid-1")
       = [detailA, detailA2].find? (fun d => d.info.uuid == "uuid-1") ∧
     processEvents [] [detailA, detailB] = [detailA, detailB]) :=
  ⟨⟨by decide, by decide⟩,
   C6_first_announcement_wins [detailA] detailA2 [detailA, detailA2] "uuid-1"
     detailA detailB (by decide) (by decide)⟩

/-- Claim C7: uuid uniqueness is an invariant. One handler step preserves
pairwise-distinct uuids, and from the empty collection at module load every
sequence of announcement events yields pairwise-distinct uuids. -/
theorem C7_uuid_uniqueness_invariant (ps : List EIP6963ProviderDetail)
    (e : EIP6963ProviderDetail) (evs : List EIP6963ProviderDetail)
    (h : (ps.map uuidOf).Nodup) :
    ((onAnnouncement ps e).1.map uuidOf).Nodup ∧
    ((processEvents [] evs).map uuidOf).Nodup := by
  constructor
  · by_cases hm : e.info.uuid ∈ ps.map uuidOf
    · rw [onAnnouncement_mem ps e hm]
      exact h
    · rw [onAnnouncement_not_mem ps e hm]
      rw [List.map_append, List.nodup_append]
      refine ⟨h, List.nodup_singleton _, ?_⟩
      intro a ha hb
      simp only [List.map_cons, List.map_nil, List.mem_singleton] at hb
      subst hb
      exact hm ha
  · rw [processEvents_spec evs]
    exact specFirstSeen_nodup evs []

/-- Witness for C7 at a concrete nodup collection and announcement. -/
theorem C7_uuid_uniqueness_invariant_witness :
    ([detailA].map uuidOf).Nodup ∧
    (((onAnnouncement [detailA] detailB).1.map uuidOf).Nodup ∧
     ((processEvents [] [detailA, detailA2, detailB]).map uuidOf).Nodup) :=
  ⟨by decide,
   C7_uuid_uniqueness_invariant [detailA] detailB [detailA, detailA2, detailB]
     (by decide)⟩

/-- Claim C8: handling one announcement event either leaves the collection
exactly as it was or extends it by exactly one new entry at the end; existing
entries are never modified, removed or reordered. -/
theorem C8_append_only (ps : List EIP6963ProviderDetail)
    (e : EIP6963ProviderDetail) :
    (onAnnouncement ps e).1 = ps ∨ (onAnnouncement ps e).1 = ps ++ [e] := by
  by_cases hm : e.info.uuid ∈ ps.map uuidOf
  · left
    rw [onAnnouncement_mem ps e hm]
  · right
    rw [onAnnouncement_not_mem ps e hm]

/-- Claim C9: connection atomicity. If the eth_requestAccounts request
rejects, or resolves to undefined, an empty array, or an array whose first
element is falsy, handleConnect leaves the connection state unchanged. -/
theorem C9_connect_atomicity (st : ConnState) (w : EIP6963ProviderDetail)
    (o : RpcOutcome (Option (List String))) (rest : List String)
    (h : (∃ e, o = RpcOutcome.rejected e) ∨ o = RpcOutcome.resolved none ∨
         o = RpcOutcome.resolved (some []) ∨
         o = RpcOutcome.resolved (some ("" :: rest))) :
    (handleConnect st w o).map Prod.fst = Except.ok st := by
  rcases h with ⟨e, rfl⟩ | rfl | rfl | rfl
  · rfl
  · rfl
  · rfl
  · rfl

/-- Witness for C9 at a concrete rejected request against the initial state. -/
theorem C9_connect_atomicity_witness :
    (∃ e, (RpcOutcome.rejected "denied" : RpcOutcome (Option (List String)))
        = RpcOutcome.rejected e) ∧
    (handleConnect ⟨none, ""⟩ detailA (RpcOutcome.rejected "denied")).map
        Prod.fst = Except.ok ⟨none, ""⟩ :=
  ⟨⟨"denied", rfl⟩,
   C9_connect_atomicity ⟨none, ""⟩ detailA (RpcOutcome.rejected "denied") []
     (Or.inl ⟨"denied", rfl⟩)⟩

/-- Claim C10: the subscriber callback fires exactly once for an announcement
that appends a new entry and never for one whose uuid is already present, so
callback invocations correspond one-to-one with collection changes. -/
theorem C10_callback_iff_append (ps : List EIP6963ProviderDetail)
    (e : EIP6963ProviderDetail) :
    ((onAnnouncement ps e).2
      = if e.info.uuid ∈ ps.map uuidOf then 0 else 1) ∧
    ((onAnnouncement ps e).2 = 1 ↔ (onAnnouncement ps e).1 ≠ ps) := by
  by_cases hm : e.info.uuid ∈ ps.map uuidOf
  · rw [onAnnouncement_mem ps e hm, if_pos hm]
    simp
  · rw [onAnnouncement_not_mem ps e hm, if_neg hm]
    refine ⟨rfl, ⟨fun _ hc => ?_, fun _ => rfl⟩⟩
    have hlen := congrArg List.length hc
    simp at hlen
